import Mathlib

/-!
Verification development for the `Deber1_ALU` repository
(`src/PythonTutorialLogicCircuits/main.py`), a zero-delay event-driven logic
circuit simulator written in Python.

The embedding works at two granularities, both transcribed from the source:

* `Connector.set` — a generic, fuel-indexed transcription of the
  `Connector.set` method over an arbitrary netlist, used for the claims about
  the method itself (idempotence guard, `==` conflation of `0`/`False`).

* Component-state structures (`Not`, `And`, `Or`, `Xor`, `HalfAdder`,
  `FullAdder` and the eight-stage ripple chain) — each Python object becomes a
  structure of connector values, and each `Connector.set` entry point of a
  wired circuit becomes a function on that structure which performs exactly
  the source's cascade for that circuit's fixed wiring: guard on `==`,
  store, run the owner's `evaluate` when `activates` is set, then propagate
  to the connected inputs in fan-out order.  Values set on a boundary output
  connector are returned as an ordered emission list, which the enclosing
  circuit delivers, in order, to the targets it wired that output to (in the
  source the output connector calls its targets directly; every circuit in
  this repository is feed-forward, so delivering each emission, in order,
  with its complete downstream cascade, performs the same set calls with the
  same values).  Monitor printing is a pure console side effect and is not
  part of the returned values; it is modelled in the generic `Connector.set`.
-/

namespace Deber1

/-- A Python value as used by this program: `None` (initial connector value),
a `bool` (gate outputs, `bit` results), or an `int` (the literal `0` passed to
`F0.Cin.set(0)`, and the `0`/`1` ints built in `negateNumber`). -/
inductive PyVal where
  | none : PyVal
  | bool : Bool → PyVal
  | int : Int → PyVal
deriving DecidableEq

/-- Python truthiness: `None` and `False` and `0` are falsy. -/
def pyTruthy : PyVal → Bool
  | .none => false
  | .bool b => b
  | .int n => n != 0

/-- Python `==` on these values: `None` equals only `None`; `False == 0`,
`True == 1` (bools compare equal to their integer value). -/
def pyEq : PyVal → PyVal → Bool
  | .none, .none => true
  | .bool a, .bool b => a == b
  | .int a, .int b => a == b
  | .bool a, .int b => (if a then (1 : Int) else 0) == b
  | .int a, .bool b => a == (if b then (1 : Int) else 0)
  | _, _ => false

/-- Python `not v`: always returns a bool. -/
def pyNot (v : PyVal) : PyVal := .bool (!pyTruthy v)

/-- Python `a and b`: returns `b` if `a` is truthy, else `a` (short-circuit,
returns one of the operands unchanged). -/
def pyAnd (a b : PyVal) : PyVal := if pyTruthy a then b else a

/-- Python `a or b`: returns `a` if `a` is truthy, else `b`. -/
def pyOr (a b : PyVal) : PyVal := if pyTruthy a then a else b

/-- Python `int(v)` for the values this program converts (bools and ints;
`int(None)` would raise and is never reached by the repository's calls). -/
def pyInt : PyVal → Int
  | .none => 0
  | .bool b => if b then 1 else 0
  | .int n => n

/-- `bit(x, bit)` from the source: `x[bit] == '1'`.  (Python would raise on an
out-of-range index; every call in the repository is in range, so the `getD`
default is never consulted.) -/
def bit (x : String) (i : Nat) : Bool := x.data.getD i '0' == '1'

/-- Deliver a list of emitted values to one downstream set function, in
emission order, collecting the values that function emits in turn.  This is
the `for con in self.connects: con.set(value)` loop seen from the side of a
single target, iterated over the successive values an output takes. -/
def runEms {σ ε ε2 : Type} (f : σ → ε → σ × List ε2) (s : σ) (ems : List ε) :
    σ × List ε2 :=
  ems.foldl (fun acc v => let r := f acc.1 v; (r.1, acc.2 ++ r.2)) (s, [])

/-- The `evaluate` behaviour of a connector's owner in the generic model:
`plain` is `LC.evaluate` (the no-op inherited by `Xor`, `HalfAdder`,
`FullAdder` and any bare `LC`); the gate kinds carry the connector ids of
their inputs and output. -/
inductive GateKind where
  | plain : GateKind
  | notGate (a b : Nat) : GateKind
  | andGate (a b c : Nat) : GateKind
  | orGate (a b c : Nat) : GateKind
deriving DecidableEq

/-- The construction-time attributes of one `Connector`: its owner (an index
into the net's gate list), the `activates` and `monitor` flags, and the
`connects` fan-out list, exactly the fields set by `Connector.__init__` and
`Connector.connect`. -/
structure ConnInfo where
  owner : Nat
  activates : Bool
  monitor : Bool
  connects : List Nat
deriving DecidableEq

/-- A netlist: the connectors and the owners' evaluate behaviours.  The
mutable `value` field of each connector lives in a separate state function
`Nat → PyVal` (initially constantly `PyVal.none`, as in `__init__`). -/
structure Net where
  conns : List ConnInfo
  gates : List GateKind
deriving DecidableEq

/-- One observable action performed during a `set` cascade: an `evaluate`
invocation on an owner, a monitor observation (the print), or the delivery
of a value to a downstream connector from the `connects` loop. -/
inductive Act where
  | evalCall (owner : Nat) : Act
  | obs (conn : Nat) (v : PyVal) : Act
  | deliver (conn : Nat) (v : PyVal) : Act
deriving DecidableEq

/-- `Connector.set` transcribed over a generic netlist: if the stored value
`==` the new value, return immediately (no action); otherwise store, run the
owner's `evaluate` when `activates` is set (the inline match is the dynamic
dispatch: a no-op for plain owners, `B.set(not A)` for `Not`,
`C.set(A and B)` / `C.set(A or B)` for `And`/`Or`), record a monitor
observation when `monitor` is set, then deliver the value to each connector
in `connects`, depth-first and in order.  The returned list records every
evaluate call, observation and delivery, in order.  The `fuel` argument only
bounds the recursion depth for Lean's benefit; on the acyclic circuits of
this repository a large enough fuel is never exhausted. -/
def Connector.set (net : Net) : Nat → (Nat → PyVal) → Nat → PyVal → ((Nat → PyVal) × List Act)
  | 0, s, _, _ => (s, [])
  | fuel + 1, s, c, v =>
      if pyEq (s c) v then (s, [])
      else
        let s1 := fun i => if i = c then v else s i
        let info := net.conns.getD c ⟨0, false, false, []⟩
        let r2 :=
          if info.activates then
            let r :=
              match net.gates.getD info.owner .plain with
              | .plain => (s1, [])
              | .notGate a b => Connector.set net fuel s1 b (pyNot (s1 a))
              | .andGate a b c2 => Connector.set net fuel s1 c2 (pyAnd (s1 a) (s1 b))
              | .orGate a b c2 => Connector.set net fuel s1 c2 (pyOr (s1 a) (s1 b))
            (r.1, Act.evalCall info.owner :: r.2)
          else (s1, [])
        let acts2 := if info.monitor then [Act.obs c v] else []
        let r3 := info.connects.foldl
          (fun acc d =>
            let r := Connector.set net fuel acc.1 d v
            (r.1, acc.2 ++ Act.deliver d v :: r.2))
          (r2.1, [])
        (r3.1, r2.2 ++ acts2 ++ r3.2)

/-- The owner dispatch of the generic model on its own, as the source's
`evaluate` methods: `LC.evaluate` returns, the three primitive gates set
their output from their inputs. -/
def LC.evaluate (net : Net) (fuel : Nat) (s : Nat → PyVal) (o : Nat) :
    (Nat → PyVal) × List Act :=
  match net.gates.getD o .plain with
  | .plain => (s, [])
  | .notGate a b => Connector.set net fuel s b (pyNot (s a))
  | .andGate a b c => Connector.set net fuel s c (pyAnd (s a) (s b))
  | .orGate a b c => Connector.set net fuel s c (pyOr (s a) (s b))

/-- The netlist of a single standalone `Not("...")` gate: connector 0 is
`A` (activates), connector 1 is `B`; owner 0 is the inverter. -/
def notNet : Net :=
  ⟨[⟨0, true, false, []⟩, ⟨0, false, false, []⟩], [GateKind.notGate 0 1]⟩

/-- The all-`None` state every freshly constructed circuit starts in. -/
def freshState : Nat → PyVal := fun _ => PyVal.none

/-- A state whose every connector currently stores Python `False`. -/
def allFalseState : Nat → PyVal := fun _ => PyVal.bool false

end Deber1

namespace Deber1

/-- State of a `Not` gate (inverter): input connector `A` (activates), output
connector `B`. -/
structure NotG where
  A : PyVal
  B : PyVal
deriving DecidableEq

/-- Freshly constructed `Not`: all connector values `None`. -/
def NotG.init : NotG := ⟨.none, .none⟩

/-- `B.set(v)` of a `Not`: guard on `==`; `B` does not activate and has no
monitor; its connects belong to the enclosing circuit, so the stored value is
emitted. -/
def NotG.setB (s : NotG) (v : PyVal) : NotG × List PyVal :=
  if pyEq s.B v then (s, []) else ({ s with B := v }, [v])

/-- `Not.evaluate`: `self.B.set(not self.A.value)`. -/
def NotG.evaluate (s : NotG) : NotG × List PyVal :=
  NotG.setB s (pyNot s.A)

/-- `A.set(v)` of a `Not`: guard; store; `A` activates, so run `evaluate`.
`A` has no connects of its own anywhere in this repository. -/
def NotG.setA (s : NotG) (v : PyVal) : NotG × List PyVal :=
  if pyEq s.A v then (s, [])
  else NotG.evaluate { s with A := v }

/-- State of a two-input gate (`Gate2` shape, used by `And` and `Or`):
inputs `A`, `B` (both activate), output `C`. -/
structure Gate2 where
  A : PyVal
  B : PyVal
  C : PyVal
deriving DecidableEq

def Gate2.init : Gate2 := ⟨.none, .none, .none⟩

/-- `C.set(v)` of a two-input gate: guard; store; emit to the enclosing
circuit's wiring. -/
def Gate2.setC (s : Gate2) (v : PyVal) : Gate2 × List PyVal :=
  if pyEq s.C v then (s, []) else ({ s with C := v }, [v])

/-- `And.evaluate`: `self.C.set(self.A.value and self.B.value)`. -/
def Gate2.evalAnd (s : Gate2) : Gate2 × List PyVal :=
  Gate2.setC s (pyAnd s.A s.B)

/-- `Or.evaluate`: `self.C.set(self.A.value or self.B.value)`. -/
def Gate2.evalOr (s : Gate2) : Gate2 × List PyVal :=
  Gate2.setC s (pyOr s.A s.B)

/-- `A.set(v)` of an `And`. -/
def Gate2.setAndA (s : Gate2) (v : PyVal) : Gate2 × List PyVal :=
  if pyEq s.A v then (s, []) else Gate2.evalAnd { s with A := v }

/-- `B.set(v)` of an `And`. -/
def Gate2.setAndB (s : Gate2) (v : PyVal) : Gate2 × List PyVal :=
  if pyEq s.B v then (s, []) else Gate2.evalAnd { s with B := v }

/-- `A.set(v)` of an `Or`. -/
def Gate2.setOrA (s : Gate2) (v : PyVal) : Gate2 × List PyVal :=
  if pyEq s.A v then (s, []) else Gate2.evalOr { s with A := v }

/-- `B.set(v)` of an `Or`. -/
def Gate2.setOrB (s : Gate2) (v : PyVal) : Gate2 × List PyVal :=
  if pyEq s.B v then (s, []) else Gate2.evalOr { s with B := v }

/-- State of the composite `Xor`: boundary connectors `A`, `B`, `C` plus the
internal `A1`, `A2` (Ands), `I1`, `I2` (inverters), `O1` (Or), wired in
`Xor.__init__` as: `A → [A1.A, I2.A]`, `B → [I1.A, A2.A]`, `I1.B → [A1.B]`,
`I2.B → [A2.B]`, `A1.C → [O1.A]`, `A2.C → [O1.B]`, `O1.C → [C]`. -/
structure XorG where
  A : PyVal
  B : PyVal
  C : PyVal
  A1 : Gate2
  A2 : Gate2
  I1 : NotG
  I2 : NotG
  O1 : Gate2
deriving DecidableEq

def XorG.init : XorG :=
  ⟨.none, .none, .none, Gate2.init, Gate2.init, NotG.init, NotG.init, Gate2.init⟩

/-- Boundary `C.set(v)` of the `Xor` (fed from `O1.C`): guard; store; emit. -/
def XorG.setC (s : XorG) (v : PyVal) : XorG × List PyVal :=
  if pyEq s.C v then (s, []) else ({ s with C := v }, [v])

/-- Deliver one value set on `O1.A`, cascading `O1.C → C`. -/
def XorG.o1AtoC (s : XorG) (v : PyVal) : XorG × List PyVal :=
  let r := Gate2.setOrA s.O1 v
  runEms XorG.setC { s with O1 := r.1 } r.2

/-- Deliver one value set on `O1.B`, cascading `O1.C → C`. -/
def XorG.o1BtoC (s : XorG) (v : PyVal) : XorG × List PyVal :=
  let r := Gate2.setOrB s.O1 v
  runEms XorG.setC { s with O1 := r.1 } r.2

/-- Deliver one value set on `A2.B` (from `I2.B`), cascading
`A2.C → O1.B → O1.C → C`. -/
def XorG.a2BtoC (s : XorG) (v : PyVal) : XorG × List PyVal :=
  let r := Gate2.setAndB s.A2 v
  runEms XorG.o1BtoC { s with A2 := r.1 } r.2

/-- Deliver one value set on `A1.B` (from `I1.B`), cascading
`A1.C → O1.A → O1.C → C`. -/
def XorG.a1BtoC (s : XorG) (v : PyVal) : XorG × List PyVal :=
  let r := Gate2.setAndB s.A1 v
  runEms XorG.o1AtoC { s with A1 := r.1 } r.2

/-- Boundary `A.set(v)` of the `Xor`: guard; store (the composite `Xor` has
no `evaluate` of its own — it inherits the no-op); propagate to `A1.A` then
`I2.A` in the wired order, each with its full downstream cascade. -/
def XorG.setA (s : XorG) (v : PyVal) : XorG × List PyVal :=
  if pyEq s.A v then (s, [])
  else
    let s := { s with A := v }
    let r1 := Gate2.setAndA s.A1 v
    let p1 := runEms XorG.o1AtoC { s with A1 := r1.1 } r1.2
    let r2 := NotG.setA p1.1.I2 v
    let p2 := runEms XorG.a2BtoC { p1.1 with I2 := r2.1 } r2.2
    (p2.1, p1.2 ++ p2.2)

/-- Boundary `B.set(v)` of the `Xor`: propagate to `I1.A` then `A2.A`. -/
def XorG.setB (s : XorG) (v : PyVal) : XorG × List PyVal :=
  if pyEq s.B v then (s, [])
  else
    let s := { s with B := v }
    let r1 := NotG.setA s.I1 v
    let p1 := runEms XorG.a1BtoC { s with I1 := r1.1 } r1.2
    let r2 := Gate2.setAndA p1.1.A2 v
    let p2 := runEms XorG.o1BtoC { p1.1 with A2 := r2.1 } r2.2
    (p2.1, p1.2 ++ p2.2)

/-- A value emitted on one of a `HalfAdder`'s two output connectors, in
chronological order. -/
inductive HAem where
  | sum : PyVal → HAem
  | carry : PyVal → HAem
deriving DecidableEq

/-- State of a `HalfAdder`: boundary connectors `A`, `B` (activate, but the
composite's `evaluate` is the inherited no-op), `S`, `C`, and the internal
`X1` (Xor) and `A1` (And), wired as `A → [X1.A, A1.A]`, `B → [X1.B, A1.B]`,
`X1.C → [S]`, `A1.C → [C]`. -/
structure HalfAdderG where
  A : PyVal
  B : PyVal
  S : PyVal
  C : PyVal
  X1 : XorG
  A1 : Gate2
deriving DecidableEq

def HalfAdderG.init : HalfAdderG :=
  ⟨.none, .none, .none, .none, XorG.init, Gate2.init⟩

/-- Boundary `S.set(v)`: guard; store; emit. -/
def HalfAdderG.setS (s : HalfAdderG) (v : PyVal) : HalfAdderG × List HAem :=
  if pyEq s.S v then (s, []) else ({ s with S := v }, [HAem.sum v])

/-- Boundary `C.set(v)`: guard; store; emit. -/
def HalfAdderG.setC (s : HalfAdderG) (v : PyVal) : HalfAdderG × List HAem :=
  if pyEq s.C v then (s, []) else ({ s with C := v }, [HAem.carry v])

/-- Boundary `A.set(v)` of a `HalfAdder`: guard; store; propagate to `X1.A`
(its `C` output feeding `S`) then `A1.A` (its `C` output feeding `C`). -/
def HalfAdderG.setA (s : HalfAdderG) (v : PyVal) : HalfAdderG × List HAem :=
  if pyEq s.A v then (s, [])
  else
    let s := { s with A := v }
    let r1 := XorG.setA s.X1 v
    let p1 := runEms HalfAdderG.setS { s with X1 := r1.1 } r1.2
    let r2 := Gate2.setAndA p1.1.A1 v
    let p2 := runEms HalfAdderG.setC { p1.1 with A1 := r2.1 } r2.2
    (p2.1, p1.2 ++ p2.2)

/-- Boundary `B.set(v)` of a `HalfAdder`: propagate to `X1.B` then `A1.B`. -/
def HalfAdderG.setB (s : HalfAdderG) (v : PyVal) : HalfAdderG × List HAem :=
  if pyEq s.B v then (s, [])
  else
    let s := { s with B := v }
    let r1 := XorG.setB s.X1 v
    let p1 := runEms HalfAdderG.setS { s with X1 := r1.1 } r1.2
    let r2 := Gate2.setAndB p1.1.A1 v
    let p2 := runEms HalfAdderG.setC { p1.1 with A1 := r2.1 } r2.2
    (p2.1, p1.2 ++ p2.2)

/-- A value emitted on one of a `FullAdder`'s two output connectors. -/
inductive FAem where
  | sum : PyVal → FAem
  | cout : PyVal → FAem
deriving DecidableEq

/-- State of a `FullAdder`: boundary connectors `A`, `B`, `Cin` (activate;
all five boundary connectors also carry `monitor=1`, a print-only flag), `S`,
`Cout`, internal `H1`, `H2` (half adders) and `O1` (Or), wired as
`A → [H1.A]`, `B → [H1.B]`, `Cin → [H2.A]`, `H1.S → [H2.B]`,
`H1.C → [O1.B]`, `H2.C → [O1.A]`, `H2.S → [S]`, `O1.C → [Cout]`. -/
structure FullAdderG where
  A : PyVal
  B : PyVal
  Cin : PyVal
  S : PyVal
  Cout : PyVal
  H1 : HalfAdderG
  H2 : HalfAdderG
  O1 : Gate2
deriving DecidableEq

def FullAdderG.init : FullAdderG :=
  ⟨.none, .none, .none, .none, .none, HalfAdderG.init, HalfAdderG.init, Gate2.init⟩

/-- Boundary `S.set(v)`: guard; store; emit. -/
def FullAdderG.setS (s : FullAdderG) (v : PyVal) : FullAdderG × List FAem :=
  if pyEq s.S v then (s, []) else ({ s with S := v }, [FAem.sum v])

/-- Boundary `Cout.set(v)` (fed from `O1.C`): guard; store; emit. -/
def FullAdderG.setCout (s : FullAdderG) (v : PyVal) : FullAdderG × List FAem :=
  if pyEq s.Cout v then (s, []) else ({ s with Cout := v }, [FAem.cout v])

/-- Deliver one emission of `H2`: its `S` feeds the boundary `S`, its `C`
feeds `O1.A`, whose `C` output feeds `Cout`. -/
def FullAdderG.deliverH2 (s : FullAdderG) (e : HAem) : FullAdderG × List FAem :=
  match e with
  | HAem.sum v => FullAdderG.setS s v
  | HAem.carry v =>
      let r := Gate2.setOrA s.O1 v
      runEms FullAdderG.setCout { s with O1 := r.1 } r.2

/-- Deliver one emission of `H1`: its `S` feeds `H2.B` (cascading through
`H2`), its `C` feeds `O1.B`, whose `C` output feeds `Cout`. -/
def FullAdderG.deliverH1 (s : FullAdderG) (e : HAem) : FullAdderG × List FAem :=
  match e with
  | HAem.sum v =>
      let r := HalfAdderG.setB s.H2 v
      runEms FullAdderG.deliverH2 { s with H2 := r.1 } r.2
  | HAem.carry v =>
      let r := Gate2.setOrB s.O1 v
      runEms FullAdderG.setCout { s with O1 := r.1 } r.2

/-- Boundary `A.set(v)` of a `FullAdder`: guard; store (the composite's
`evaluate` is the inherited no-op, the monitor print is console-only);
propagate to `H1.A` with its full cascade. -/
def FullAdderG.setA (s : FullAdderG) (v : PyVal) : FullAdderG × List FAem :=
  if pyEq s.A v then (s, [])
  else
    let s := { s with A := v }
    let r := HalfAdderG.setA s.H1 v
    runEms FullAdderG.deliverH1 { s with H1 := r.1 } r.2

/-- Boundary `B.set(v)` of a `FullAdder`: propagate to `H1.B`. -/
def FullAdderG.setB (s : FullAdderG) (v : PyVal) : FullAdderG × List FAem :=
  if pyEq s.B v then (s, [])
  else
    let s := { s with B := v }
    let r := HalfAdderG.setB s.H1 v
    runEms FullAdderG.deliverH1 { s with H1 := r.1 } r.2

/-- Boundary `Cin.set(v)` of a `FullAdder`: propagate to `H2.A`. -/
def FullAdderG.setCin (s : FullAdderG) (v : PyVal) : FullAdderG × List FAem :=
  if pyEq s.Cin v then (s, [])
  else
    let s := { s with Cin := v }
    let r := HalfAdderG.setA s.H2 v
    runEms FullAdderG.deliverH2 { s with H2 := r.1 } r.2

/-- `FullAdder` (and `HalfAdder`, `Xor`) define no `evaluate` of their own:
the inherited `LC.evaluate` just returns.  `increment` calls it explicitly on
each stage. -/
def FullAdderG.evaluate (s : FullAdderG) : FullAdderG := s

/-- Apply a list of emissions of stage `i` of the ripple chain to stage
`i+1`: a stage's `S` has no connects at chain level, its `Cout` is wired (in
`addcarry`/`increment`) to the next stage's `Cin`.  Each `Cout` value is
delivered by `Cin.set` in emission order; the emissions stage `i+1` produces
in response are collected, in order, for the stages further down. -/
def deliverChain (f : FullAdderG) (ems : List FAem) : FullAdderG × List FAem :=
  ems.foldl
    (fun acc e =>
      match e with
      | FAem.sum _ => acc
      | FAem.cout v =>
          let r := FullAdderG.setCin acc.1 v
          (r.1, acc.2 ++ r.2))
    (f, [])

/-- Deliver a list of emissions of stage `i` of the ripple chain to the later
stages `[i+1, …]`, the last stage's `Cout` being wired to nothing.  In the
source each delivered value recurses depth-first; as the chain is strictly
feed-forward (no later stage ever feeds an earlier one), applying all of a
stage's incoming values before recursing down the chain performs the same
`set` calls with the same values in the same per-connector order.  The
`fuel` argument only bounds the recursion depth for Lean's benefit: one unit
is spent per chain stage descended, so any `fuel ≥ stages.length` (the
chains of this repository have eight stages and `setAt` passes 8) makes the
exhaustion branch unreachable. -/
def propagate : Nat → List FullAdderG → List FAem → List FullAdderG
  | _, stages, [] => stages
  | 0, stages, _ :: _ => stages
  | fuel + 1, stages, e :: es =>
      match stages with
      | [] => []
      | f :: rest =>
          let r := deliverChain f (e :: es)
          r.1 :: propagate fuel rest r.2

/-- Call one boundary set function on stage `i` of the chain and deliver the
emissions down the chain. -/
def setAt (s : List FullAdderG) (i : Nat)
    (f : FullAdderG → PyVal → FullAdderG × List FAem) (v : PyVal) :
    List FullAdderG :=
  match s, i with
  | [], _ => []
  | g :: rest, 0 => let r := f g v; r.1 :: propagate 8 rest r.2
  | g :: rest, Nat.succ n => g :: setAt rest n f v

/-- `F_i.evaluate()` as called by `increment`: the composite `FullAdder`'s
inherited `evaluate` is a no-op. -/
def evalAt (s : List FullAdderG) (i : Nat) : List FullAdderG :=
  match s, i with
  | [], _ => []
  | g :: rest, 0 => FullAdderG.evaluate g :: rest
  | g :: rest, Nat.succ n => g :: evalAt rest n

/-- The source's return expression `[F7.Cout.value, F7.S.value, …,
F0.S.value]` read off the chain `[F0, …, F7]`. -/
def readResult (s : List FullAdderG) : List PyVal :=
  [(s.getD 7 FullAdderG.init).Cout,
   (s.getD 7 FullAdderG.init).S, (s.getD 6 FullAdderG.init).S,
   (s.getD 5 FullAdderG.init).S, (s.getD 4 FullAdderG.init).S,
   (s.getD 3 FullAdderG.init).S, (s.getD 2 FullAdderG.init).S,
   (s.getD 1 FullAdderG.init).S, (s.getD 0 FullAdderG.init).S]

/-- `addcarry(a, b)`: eight fresh `FullAdder`s `F0 … F7` with each `Cout`
wired to the next `Cin` (the wiring lives in `setAt`/`propagate`); then the
source's set calls in order: `F0.Cin.set(0)` (the int literal), and each
stage's `A`/`B` from the bits of `a`/`b`, least-significant stage first. -/
def addcarry (a b : String) : List PyVal :=
  let s : List FullAdderG := List.replicate 8 FullAdderG.init
  let s := setAt s 0 FullAdderG.setCin (PyVal.int 0)
  let s := setAt s 0 FullAdderG.setA (PyVal.bool (bit a 7))
  let s := setAt s 0 FullAdderG.setB (PyVal.bool (bit b 7))
  let s := setAt s 1 FullAdderG.setA (PyVal.bool (bit a 6))
  let s := setAt s 1 FullAdderG.setB (PyVal.bool (bit b 6))
  let s := setAt s 2 FullAdderG.setA (PyVal.bool (bit a 5))
  let s := setAt s 2 FullAdderG.setB (PyVal.bool (bit b 5))
  let s := setAt s 3 FullAdderG.setA (PyVal.bool (bit a 4))
  let s := setAt s 3 FullAdderG.setB (PyVal.bool (bit b 4))
  let s := setAt s 4 FullAdderG.setA (PyVal.bool (bit a 3))
  let s := setAt s 4 FullAdderG.setB (PyVal.bool (bit b 3))
  let s := setAt s 5 FullAdderG.setA (PyVal.bool (bit a 2))
  let s := setAt s 5 FullAdderG.setB (PyVal.bool (bit b 2))
  let s := setAt s 6 FullAdderG.setA (PyVal.bool (bit a 1))
  let s := setAt s 6 FullAdderG.setB (PyVal.bool (bit b 1))
  let s := setAt s 7 FullAdderG.setA (PyVal.bool (bit a 0))
  let s := setAt s 7 FullAdderG.setB (PyVal.bool (bit b 0))
  readResult s

/-- `increment(a, b)`: identical chain and set calls to `addcarry`, except
that each stage's name is wrapped in an inert `And(...)` object (names only
feed the monitor print and are not part of the values) and that
`F_i.evaluate()` — the composite's no-op — is called after each stage's `B`
set. -/
def increment (a b : String) : List PyVal :=
  let s : List FullAdderG := List.replicate 8 FullAdderG.init
  let s := setAt s 0 FullAdderG.setCin (PyVal.int 0)
  let s := setAt s 0 FullAdderG.setA (PyVal.bool (bit a 7))
  let s := setAt s 0 FullAdderG.setB (PyVal.bool (bit b 7))
  let s := evalAt s 0
  let s := setAt s 1 FullAdderG.setA (PyVal.bool (bit a 6))
  let s := setAt s 1 FullAdderG.setB (PyVal.bool (bit b 6))
  let s := evalAt s 1
  let s := setAt s 2 FullAdderG.setA (PyVal.bool (bit a 5))
  let s := setAt s 2 FullAdderG.setB (PyVal.bool (bit b 5))
  let s := evalAt s 2
  let s := setAt s 3 FullAdderG.setA (PyVal.bool (bit a 4))
  let s := setAt s 3 FullAdderG.setB (PyVal.bool (bit b 4))
  let s := evalAt s 3
  let s := setAt s 4 FullAdderG.setA (PyVal.bool (bit a 3))
  let s := setAt s 4 FullAdderG.setB (PyVal.bool (bit b 3))
  let s := evalAt s 4
  let s := setAt s 5 FullAdderG.setA (PyVal.bool (bit a 2))
  let s := setAt s 5 FullAdderG.setB (PyVal.bool (bit b 2))
  let s := evalAt s 5
  let s := setAt s 6 FullAdderG.setA (PyVal.bool (bit a 1))
  let s := setAt s 6 FullAdderG.setB (PyVal.bool (bit b 1))
  let s := evalAt s 6
  let s := setAt s 7 FullAdderG.setA (PyVal.bool (bit a 0))
  let s := setAt s 7 FullAdderG.setB (PyVal.bool (bit b 0))
  let s := evalAt s 7
  readResult s

/-- `complementOne(a)`: eight independent inverters (the source constructs
them in the order F0, F1, F3, F2, F4…F7, which is immaterial as they are
unconnected); each gets `A.set(bit(a, 7-i))` followed by an explicit
`evaluate()`; result `[F7.B, …, F0.B]`.  The inverters' `B` connectors have
no connects here, so emissions go nowhere. -/
def complementOne (a : String) : List PyVal :=
  let f0 := (NotG.evaluate (NotG.setA NotG.init (PyVal.bool (bit a 7))).1).1
  let f1 := (NotG.evaluate (NotG.setA NotG.init (PyVal.bool (bit a 6))).1).1
  let f2 := (NotG.evaluate (NotG.setA NotG.init (PyVal.bool (bit a 5))).1).1
  let f3 := (NotG.evaluate (NotG.setA NotG.init (PyVal.bool (bit a 4))).1).1
  let f4 := (NotG.evaluate (NotG.setA NotG.init (PyVal.bool (bit a 3))).1).1
  let f5 := (NotG.evaluate (NotG.setA NotG.init (PyVal.bool (bit a 2))).1).1
  let f6 := (NotG.evaluate (NotG.setA NotG.init (PyVal.bool (bit a 1))).1).1
  let f7 := (NotG.evaluate (NotG.setA NotG.init (PyVal.bool (bit a 0))).1).1
  [f7.B, f6.B, f5.B, f4.B, f3.B, f2.B, f1.B, f0.B]

/-- The local `toString(byte)` helper of `PassTrough` and `Substraction`:
`"".join(str(int(bit)))`.  Every value converted by the repository is a bool
(or the ints 0/1), so the produced digit is `'0'` for falsy-0, `'1'` for 1. -/
def toStringPy (byte : List PyVal) : String :=
  String.mk (byte.map fun b => if pyInt b == 0 then '0' else '1')

/-- `negateNumber(a)`: run `complementOne`, re-encode the boolean list as a
bit string (`0` if `j == False` — Python `==`, hence `pyEq` — else `1`, then
`"".join(str(_))`), and `increment` it with the constant `"00000001"`. -/
def negateNumber (a : String) : List PyVal :=
  let result := complementOne a
  let b := result.map fun j => if pyEq j (PyVal.bool false) then (0 : Int) else 1
  let number := String.mk (b.map fun i => if i == 0 then '0' else '1')
  increment number "00000001"

/-- `PassTrough(a)`: the source builds `F_i = Not(Not("F_i"))`, but the inner
`Not(...)` is only the *name argument* of the outer inverter — it is never
wired to anything — so each bit passes through a single inverter: `A.set`
plus an explicit `evaluate()`, then `toString([F7.B, …, F0.B])`. -/
def PassTrough (a : String) : String :=
  let f0 := (NotG.evaluate (NotG.setA NotG.init (PyVal.bool (bit a 7))).1).1
  let f1 := (NotG.evaluate (NotG.setA NotG.init (PyVal.bool (bit a 6))).1).1
  let f2 := (NotG.evaluate (NotG.setA NotG.init (PyVal.bool (bit a 5))).1).1
  let f3 := (NotG.evaluate (NotG.setA NotG.init (PyVal.bool (bit a 4))).1).1
  let f4 := (NotG.evaluate (NotG.setA NotG.init (PyVal.bool (bit a 3))).1).1
  let f5 := (NotG.evaluate (NotG.setA NotG.init (PyVal.bool (bit a 2))).1).1
  let f6 := (NotG.evaluate (NotG.setA NotG.init (PyVal.bool (bit a 1))).1).1
  let f7 := (NotG.evaluate (NotG.setA NotG.init (PyVal.bool (bit a 0))).1).1
  toStringPy [f7.B, f6.B, f5.B, f4.B, f3.B, f2.B, f1.B, f0.B]

/-- `Substraction(a, b)`: `b = toString(negateNumber(b))` — a NINE-character
string, the adder's carry digit included — then `c = addcarry(a, b)`.  The
source ends with `return print(toString(c))`, i.e. it prints the
nine-character `toString(c)` and returns Python `None`; this definition
models the printed text. -/
def Substraction (a b : String) : String :=
  let b2 := toStringPy (negateNumber b)
  let c := addcarry a b2
  toStringPy c

end Deber1

namespace Deber1

/-! ### Ripple-chain analysis

`addcarry` processes its eight stages strictly left to right; each stage
receives its chain-level `Cin` deliveries (all emitted while the previous
stage's inputs were set) before its own `A`/`B` set calls.  We characterise
the three connector-value configurations a not-yet-fed stage can be in —
`Cin` set to the int `0` (stage 0), `Cin` set to `False`, set to `True`, or
set to `False` and then `True` (the carry emission sequences the chain
produces) — and verify once and for all, by computation over all 32 cases,
how one stage transforms under its two input events. -/

/-- Majority of three booleans: the full-adder carry-out. -/
def majB (a b c : Bool) : Bool := (a && b) || (a && c) || (b && c)

/-- The four configurations an as-yet-unfed `FullAdder` stage of the chain
can be in, named by the `Cin` values delivered so far: fresh+`int 0`,
fresh+`False`, fresh+`True`, fresh+`False`-then-`True`. -/
inductive CVar where
  | z0 | sf | st | sft
deriving DecidableEq

/-- The connector state of each configuration, produced by the model's own
`Cin.set` cascades on a fresh stage. -/
def CVar.state : CVar → FullAdderG
  | .z0 => (FullAdderG.setCin FullAdderG.init (PyVal.int 0)).1
  | .sf => (FullAdderG.setCin FullAdderG.init (PyVal.bool false)).1
  | .st => (FullAdderG.setCin FullAdderG.init (PyVal.bool true)).1
  | .sft => (FullAdderG.setCin (FullAdderG.setCin FullAdderG.init (PyVal.bool false)).1
      (PyVal.bool true)).1

/-- The carry-in value each configuration represents. -/
def CVar.carry : CVar → Bool
  | .z0 => false
  | .sf => false
  | .st => true
  | .sft => true

/-- A stage after its `A` and `B` events: the model's own two set cascades
applied to the configuration state. -/
def settledFA (a b : Bool) (v : CVar) : FullAdderG :=
  (FullAdderG.setB (FullAdderG.setA v.state (PyVal.bool a)).1 (PyVal.bool b)).1

/-- The configuration the *next* stage is left in by this stage's `Cout`
emissions: carry 0 always arrives as a single `False`; carry 1 arrives as
`True` alone when `a` is true (the `A` event emits nothing), else as `False`
(from the `A` event) followed by `True`. -/
def stepVar (a b : Bool) (v : CVar) : CVar :=
  if majB a b v.carry then (if a then .st else .sft) else .sf

/-- The settled states of a whole chain, one per bit pair, least-significant
stage first, threading the carry configuration. -/
def chainSpec : List (Bool × Bool) → CVar → List FullAdderG
  | [], _ => []
  | (a, b) :: ps, v => settledFA a b v :: chainSpec ps (stepVar a b v)

/-- The straight-line body of `addcarry` as a fold: one `setAt`-`A` and one
`setAt`-`B` per bit pair at successive stage indices.  Unfolded on an
eight-element list this is literally `addcarry`'s let chain. -/
def goIdx : Nat → List (Bool × Bool) → List FullAdderG → List FullAdderG
  | _, [], s => s
  | n, (a, b) :: ps, s =>
      goIdx (n + 1) ps
        (setAt (setAt s n FullAdderG.setA (PyVal.bool a)) n FullAdderG.setB (PyVal.bool b))

lemma setAt_append (pre : List FullAdderG) (s : List FullAdderG)
    (f : FullAdderG → PyVal → FullAdderG × List FAem) (v : PyVal) :
    setAt (pre ++ s) pre.length f v = pre ++ setAt s 0 f v := by
  induction pre with
  | nil => rfl
  | cons p ps ih => simp [setAt, ih]

/-- One chain stage under its `A` then `B` events, with the next stage
still unfed and an arbitrary remainder: the stage settles, the next stage
receives exactly this stage's `Cout` emissions, and no later stage is
touched.  Verified by computation in all 32 configuration/input cases. -/
lemma stepMid (a b : Bool) (v : CVar) (rest : List FullAdderG) :
    setAt (setAt (v.state :: FullAdderG.init :: rest) 0 FullAdderG.setA (PyVal.bool a)) 0
        FullAdderG.setB (PyVal.bool b)
      = settledFA a b v :: (stepVar a b v).state :: rest := by
  cases v <;> cases a <;> cases b <;> rfl

/-- The last chain stage under its `A` then `B` events (its `Cout` is wired
to nothing). -/
lemma stepLast (a b : Bool) (v : CVar) :
    setAt (setAt [v.state] 0 FullAdderG.setA (PyVal.bool a)) 0 FullAdderG.setB (PyVal.bool b)
      = [settledFA a b v] := by
  cases v <;> cases a <;> cases b <;> rfl

/-- A settled stage's `S` connector holds the full-adder sum bit. -/
lemma settledFA_S (a b : Bool) (v : CVar) :
    (settledFA a b v).S = PyVal.bool (a ^^ (b ^^ v.carry)) := by
  cases v <;> cases a <;> cases b <;> rfl

/-- A settled stage's `Cout` connector holds the full-adder carry-out. -/
lemma settledFA_Cout (a b : Bool) (v : CVar) :
    (settledFA a b v).Cout = PyVal.bool (majB a b v.carry) := by
  cases v <;> cases a <;> cases b <;> rfl

lemma stepVar_carry (a b : Bool) (v : CVar) :
    (stepVar a b v).carry = majB a b v.carry := by
  cases v <;> cases a <;> cases b <;> rfl

/-- Processing the remaining bit pairs from any stage onward settles exactly
those stages as `chainSpec` describes, leaving everything before untouched:
induction over the pairs using `stepMid`/`stepLast`. -/
lemma goIdx_spec : ∀ (ps : List (Bool × Bool)) (a b : Bool) (pre : List FullAdderG) (v : CVar),
    goIdx pre.length ((a, b) :: ps) (pre ++ v.state :: List.replicate ps.length FullAdderG.init)
      = pre ++ chainSpec ((a, b) :: ps) v := by
  intro ps
  induction ps with
  | nil =>
      intro a b pre v
      show goIdx (pre.length + 1) []
          (setAt (setAt (pre ++ [v.state]) pre.length FullAdderG.setA (PyVal.bool a)) pre.length
            FullAdderG.setB (PyVal.bool b)) = _
      rw [setAt_append]
      have h2 : setAt (pre ++ setAt [v.state] 0 FullAdderG.setA (PyVal.bool a)) pre.length
          FullAdderG.setB (PyVal.bool b)
          = pre ++ setAt (setAt [v.state] 0 FullAdderG.setA (PyVal.bool a)) 0
              FullAdderG.setB (PyVal.bool b) := setAt_append ..
      rw [h2, stepLast]
      rfl
  | cons p ps2 ih =>
      intro a b pre v
      obtain ⟨a2, b2⟩ := p
      show goIdx (pre.length + 1) ((a2, b2) :: ps2)
          (setAt (setAt
              (pre ++ v.state :: FullAdderG.init :: List.replicate ps2.length FullAdderG.init)
              pre.length FullAdderG.setA (PyVal.bool a)) pre.length
            FullAdderG.setB (PyVal.bool b)) = _
      rw [setAt_append]
      have h2 : setAt
          (pre ++ setAt (v.state :: FullAdderG.init :: List.replicate ps2.length FullAdderG.init) 0
            FullAdderG.setA (PyVal.bool a)) pre.length FullAdderG.setB (PyVal.bool b)
          = pre ++ setAt
              (setAt (v.state :: FullAdderG.init :: List.replicate ps2.length FullAdderG.init) 0
                FullAdderG.setA (PyVal.bool a)) 0 FullAdderG.setB (PyVal.bool b) := setAt_append ..
      rw [h2, stepMid]
      have h3 : pre ++ settledFA a b v :: (stepVar a b v).state ::
            List.replicate ps2.length FullAdderG.init
          = (pre ++ [settledFA a b v]) ++ (stepVar a b v).state ::
              List.replicate ps2.length FullAdderG.init := by
        simp
      rw [h3]
      have h4 : pre.length + 1 = (pre ++ [settledFA a b v]).length := by simp
      rw [h4, ih a2 b2 (pre ++ [settledFA a b v]) (stepVar a b v)]
      simp [chainSpec]

/-- The 8-character bit string of `n % 256`, most-significant character
first: the canonical form of the strings the public operations consume. -/
def natToBits8 (n : Nat) : String :=
  String.mk [if n.testBit 7 then '1' else '0', if n.testBit 6 then '1' else '0',
    if n.testBit 5 then '1' else '0', if n.testBit 4 then '1' else '0',
    if n.testBit 3 then '1' else '0', if n.testBit 2 then '1' else '0',
    if n.testBit 1 then '1' else '0', if n.testBit 0 then '1' else '0']

lemma charEqOne (c : Bool) : ((if c then '1' else '0') == '1') = c := by
  cases c <;> rfl

lemma bit_natToBits8_0 (n : Nat) : bit (natToBits8 n) 0 = n.testBit 7 := by
  show ((if n.testBit 7 then '1' else '0') == '1') = n.testBit 7
  exact charEqOne _

lemma bit_natToBits8_1 (n : Nat) : bit (natToBits8 n) 1 = n.testBit 6 := by
  show ((if n.testBit 6 then '1' else '0') == '1') = n.testBit 6
  exact charEqOne _

lemma bit_natToBits8_2 (n : Nat) : bit (natToBits8 n) 2 = n.testBit 5 := by
  show ((if n.testBit 5 then '1' else '0') == '1') = n.testBit 5
  exact charEqOne _

lemma bit_natToBits8_3 (n : Nat) : bit (natToBits8 n) 3 = n.testBit 4 := by
  show ((if n.testBit 4 then '1' else '0') == '1') = n.testBit 4
  exact charEqOne _

lemma bit_natToBits8_4 (n : Nat) : bit (natToBits8 n) 4 = n.testBit 3 := by
  show ((if n.testBit 3 then '1' else '0') == '1') = n.testBit 3
  exact charEqOne _

lemma bit_natToBits8_5 (n : Nat) : bit (natToBits8 n) 5 = n.testBit 2 := by
  show ((if n.testBit 2 then '1' else '0') == '1') = n.testBit 2
  exact charEqOne _

lemma bit_natToBits8_6 (n : Nat) : bit (natToBits8 n) 6 = n.testBit 1 := by
  show ((if n.testBit 1 then '1' else '0') == '1') = n.testBit 1
  exact charEqOne _

lemma bit_natToBits8_7 (n : Nat) : bit (natToBits8 n) 7 = n.testBit 0 := by
  show ((if n.testBit 0 then '1' else '0') == '1') = n.testBit 0
  exact charEqOne _

/-- The ripple carry into bit `k` when adding two naturals bit by bit. -/
def carries (x y : Nat) : Nat → Bool
  | 0 => false
  | k + 1 => majB (x.testBit k) (y.testBit k) (carries x y k)

lemma carries_bv (x y : Nat) (hx : x < 256) (hy : y < 256) :
    ∀ k, carries x y k = BitVec.carry k (BitVec.ofNat 8 x) (BitVec.ofNat 8 y) false := by
  intro k
  induction k with
  | zero => simp [carries]
  | succ k ih =>
      rw [BitVec.carry_succ]
      show majB (x.testBit k) (y.testBit k) (carries x y k) = _
      rw [ih]
      have hgx : (BitVec.ofNat 8 x).getLsbD k = x.testBit k := by
        show (BitVec.ofNat 8 x).toNat.testBit k = _
        rw [BitVec.toNat_ofNat, Nat.mod_eq_of_lt hx]
      have hgy : (BitVec.ofNat 8 y).getLsbD k = y.testBit k := by
        show (BitVec.ofNat 8 y).toNat.testBit k = _
        rw [BitVec.toNat_ofNat, Nat.mod_eq_of_lt hy]
      rw [hgx, hgy]
      rfl

/-- The eighth ripple carry is the mod-256 overflow flag. -/
lemma carries_correct (x y : Nat) (hx : x < 256) (hy : y < 256) :
    carries x y 8 = decide (256 ≤ x + y) := by
  rw [carries_bv x y hx hy 8]
  show decide ((BitVec.ofNat 8 x).toNat % 2 ^ 8 + (BitVec.ofNat 8 y).toNat % 2 ^ 8 + false.toNat
      ≥ 2 ^ 8) = _
  rw [BitVec.toNat_ofNat, BitVec.toNat_ofNat]
  have h1 : x % 2 ^ 8 = x := Nat.mod_eq_of_lt hx
  have h2 : y % 2 ^ 8 = y := Nat.mod_eq_of_lt hy
  rw [h1, h2]
  exact decide_eq_decide.mpr (by simp [Bool.toNat]; omega)

/-- Each ripple sum bit is the corresponding bit of the mod-256 sum. -/
lemma sumBit_correct (x y : Nat) (hx : x < 256) (hy : y < 256) (k : Nat) (hk : k < 8) :
    (x.testBit k ^^ (y.testBit k ^^ carries x y k)) = ((x + y) % 256).testBit k := by
  have hs : ((x + y) % 256) = (BitVec.ofNat 8 x + BitVec.ofNat 8 y).toNat := by
    rw [BitVec.toNat_add, BitVec.toNat_ofNat, BitVec.toNat_ofNat,
      Nat.mod_eq_of_lt hx, Nat.mod_eq_of_lt hy]
  rw [hs]
  show _ = (BitVec.ofNat 8 x + BitVec.ofNat 8 y).getLsbD k
  rw [BitVec.getLsbD_add hk]
  have hgx : (BitVec.ofNat 8 x).getLsbD k = x.testBit k := by
    show (BitVec.ofNat 8 x).toNat.testBit k = _
    rw [BitVec.toNat_ofNat, Nat.mod_eq_of_lt hx]
  have hgy : (BitVec.ofNat 8 y).getLsbD k = y.testBit k := by
    show (BitVec.ofNat 8 y).toNat.testBit k = _
    rw [BitVec.toNat_ofNat, Nat.mod_eq_of_lt hy]
  rw [hgx, hgy, carries_bv x y hx hy k]

/-- `addcarry`'s straight-line let chain is `goIdx` over the eight bit
pairs; by `goIdx_spec` the final chain is `chainSpec` from the `int 0`
configuration of stage 0. -/
lemma addcarry_eq_chainSpec (a b : String) :
    addcarry a b = readResult (chainSpec
      [(bit a 7, bit b 7), (bit a 6, bit b 6), (bit a 5, bit b 5), (bit a 4, bit b 4),
       (bit a 3, bit b 3), (bit a 2, bit b 2), (bit a 1, bit b 1), (bit a 0, bit b 0)]
      CVar.z0) := by
  have h := goIdx_spec
    [(bit a 6, bit b 6), (bit a 5, bit b 5), (bit a 4, bit b 4),
     (bit a 3, bit b 3), (bit a 2, bit b 2), (bit a 1, bit b 1), (bit a 0, bit b 0)]
    (bit a 7) (bit b 7) [] CVar.z0
  exact congrArg readResult h

/-- `addcarry` on the encodings of `x` and `y` returns the overflow flag and
the bits of `(x + y) % 256`, most significant first. -/
lemma addcarry_correct (x y : Nat) (hx : x < 256) (hy : y < 256) :
    addcarry (natToBits8 x) (natToBits8 y) =
      [PyVal.bool (decide (256 ≤ x + y)),
       PyVal.bool (((x + y) % 256).testBit 7), PyVal.bool (((x + y) % 256).testBit 6),
       PyVal.bool (((x + y) % 256).testBit 5), PyVal.bool (((x + y) % 256).testBit 4),
       PyVal.bool (((x + y) % 256).testBit 3), PyVal.bool (((x + y) % 256).testBit 2),
       PyVal.bool (((x + y) % 256).testBit 1), PyVal.bool (((x + y) % 256).testBit 0)] := by
  rw [addcarry_eq_chainSpec]
  simp only [bit_natToBits8_0, bit_natToBits8_1, bit_natToBits8_2, bit_natToBits8_3,
    bit_natToBits8_4, bit_natToBits8_5, bit_natToBits8_6, bit_natToBits8_7]
  simp only [chainSpec, readResult, List.getD_cons_zero, List.getD_cons_succ,
    settledFA_S, settledFA_Cout, stepVar_carry, show CVar.z0.carry = false from rfl]
  show [PyVal.bool (carries x y 8),
      PyVal.bool (x.testBit 7 ^^ (y.testBit 7 ^^ carries x y 7)),
      PyVal.bool (x.testBit 6 ^^ (y.testBit 6 ^^ carries x y 6)),
      PyVal.bool (x.testBit 5 ^^ (y.testBit 5 ^^ carries x y 5)),
      PyVal.bool (x.testBit 4 ^^ (y.testBit 4 ^^ carries x y 4)),
      PyVal.bool (x.testBit 3 ^^ (y.testBit 3 ^^ carries x y 3)),
      PyVal.bool (x.testBit 2 ^^ (y.testBit 2 ^^ carries x y 2)),
      PyVal.bool (x.testBit 1 ^^ (y.testBit 1 ^^ carries x y 1)),
      PyVal.bool (x.testBit 0 ^^ (y.testBit 0 ^^ carries x y 0))] = _
  rw [carries_correct x y hx hy,
    sumBit_correct x y hx hy 7 (by omega), sumBit_correct x y hx hy 6 (by omega),
    sumBit_correct x y hx hy 5 (by omega), sumBit_correct x y hx hy 4 (by omega),
    sumBit_correct x y hx hy 3 (by omega), sumBit_correct x y hx hy 2 (by omega),
    sumBit_correct x y hx hy 1 (by omega), sumBit_correct x y hx hy 0 (by omega)]

/-- The explicit `F_i.evaluate()` calls of `increment` do nothing: the
composite `FullAdder` inherits the no-op `LC.evaluate`. -/
lemma evalAt_id : ∀ (s : List FullAdderG) (i : Nat), evalAt s i = s := by
  intro s
  induction s with
  | nil => intro i; rfl
  | cons g rest ih =>
      intro i
      cases i with
      | zero => rfl
      | succ n => show g :: evalAt rest n = g :: rest; rw [ih]

/-- `increment` and `addcarry` perform the same set calls on the same chain;
they differ only by the inert per-stage `evaluate()` calls (and by the name
objects, which never enter the values). -/
lemma increment_eq (a b : String) : increment a b = addcarry a b := by
  simp only [increment, addcarry, evalAt_id]

end Deber1

namespace Deber1

/-- Shared helper: `Connector.set` with an `==`-equal value returns before
doing anything — state unchanged, no evaluate call, no observation, no
delivery. -/
lemma set_guard_noop (net : Net) (fuel : Nat) (s : Nat → PyVal) (c : Nat) (v : PyVal)
    (h : pyEq (s c) v = true) : Connector.set net fuel s c v = (s, []) := by
  cases fuel with
  | zero => rfl
  | succ n => simp [Connector.set, h]

/-- The Fin-256 form of `negate_string`: re-encoding `complementOne`'s
boolean list by `negateNumber`'s own codec yields the bit string of
`255 - x`, checked for all 256 inputs. -/
lemma negate_string_fin : ∀ x : Fin 256,
    String.mk ((((complementOne (natToBits8 x.val)).map fun j =>
        if pyEq j (PyVal.bool false) then (0 : Int) else 1).map fun i =>
          if i == 0 then '0' else '1')) = natToBits8 (255 - x.val) := by
  set_option maxRecDepth 10000 in decide

lemma negate_string (x : Nat) (hx : x < 256) :
    String.mk ((((complementOne (natToBits8 x)).map fun j =>
        if pyEq j (PyVal.bool false) then (0 : Int) else 1).map fun i =>
          if i == 0 then '0' else '1')) = natToBits8 (255 - x) :=
  negate_string_fin ⟨x, hx⟩

/-- `negateNumber` returns the nine-element adder result of
`complementOne(a) + 1`: overflow flag (true exactly on input 0) followed by
the bits of `(256 - x) % 256`. -/
lemma negateNumber_correct (x : Nat) (hx : x < 256) :
    negateNumber (natToBits8 x) =
      [PyVal.bool (decide (x = 0)),
       PyVal.bool (((256 - x) % 256).testBit 7), PyVal.bool (((256 - x) % 256).testBit 6),
       PyVal.bool (((256 - x) % 256).testBit 5), PyVal.bool (((256 - x) % 256).testBit 4),
       PyVal.bool (((256 - x) % 256).testBit 3), PyVal.bool (((256 - x) % 256).testBit 2),
       PyVal.bool (((256 - x) % 256).testBit 1), PyVal.bool (((256 - x) % 256).testBit 0)] := by
  have h1 : negateNumber (natToBits8 x) = increment (natToBits8 (255 - x)) "00000001" := by
    show increment (String.mk ((((complementOne (natToBits8 x)).map fun j =>
        if pyEq j (PyVal.bool false) then (0 : Int) else 1).map fun i =>
          if i == 0 then '0' else '1'))) "00000001" = _
    rw [negate_string x hx]
  rw [h1, increment_eq, show ("00000001" : String) = natToBits8 1 from by decide,
    addcarry_correct (255 - x) 1 (by omega) (by omega)]
  have e : 255 - x + 1 = 256 - x := by omega
  rw [e]
  have hc : decide (256 ≤ 256 - x) = decide (x = 0) := decide_eq_decide.mpr (by omega)
  rw [hc]

/-! ### The claims -/

/-- C1: for every pair of 8-character '0'/'1' strings (ranged over by
`natToBits8`), `addcarry` returns a 9-element result — the final stage's
carry-out, then the 8 sum bits most-significant first — equal to the binary
sum of the inputs modulo 256, the leading carry flagging overflow; in
particular `addcarry("00000001","00000001")` yields carry `False` and sum
`00000010`, and `addcarry("11111111","00000001")` yields carry `True` and
sum `00000000`. -/
theorem addcarry_ripple_sum_mod256 :
    (∀ x y : Fin 256,
      addcarry (natToBits8 x.val) (natToBits8 y.val) =
        [PyVal.bool (decide (256 ≤ x.val + y.val)),
         PyVal.bool (((x.val + y.val) % 256).testBit 7),
         PyVal.bool (((x.val + y.val) % 256).testBit 6),
         PyVal.bool (((x.val + y.val) % 256).testBit 5),
         PyVal.bool (((x.val + y.val) % 256).testBit 4),
         PyVal.bool (((x.val + y.val) % 256).testBit 3),
         PyVal.bool (((x.val + y.val) % 256).testBit 2),
         PyVal.bool (((x.val + y.val) % 256).testBit 1),
         PyVal.bool (((x.val + y.val) % 256).testBit 0)])
    ∧ addcarry "00000001" "00000001" =
        [PyVal.bool false, PyVal.bool false, PyVal.bool false, PyVal.bool false,
         PyVal.bool false, PyVal.bool false, PyVal.bool false, PyVal.bool true,
         PyVal.bool false]
    ∧ addcarry "11111111" "00000001" =
        [PyVal.bool true, PyVal.bool false, PyVal.bool false, PyVal.bool false,
         PyVal.bool false, PyVal.bool false, PyVal.bool false, PyVal.bool false,
         PyVal.bool false] := by
  refine ⟨fun x y => addcarry_correct x.val y.val x.isLt y.isLt, by decide, by decide⟩

/-- C2 (code bug): on the source's own commented example
`Substraction('10010101','11000110')` (149 - 198), the routine feeds the
NINE-character `toString(negateNumber(b))` — carry digit included, least
significant bit dropped — into `addcarry`, so it adds 29 instead of the
two's complement 58 and prints `010110010`; re-adding the printed result
bits `10110010` to `b` gives `01111000` (120), not `a` (149).  The third
conjunct exhibits the misalignment: the re-encoded negation is not the
8-character bit string of `256 - 198 = 58`. -/
theorem substraction_misaligns_negation :
    Substraction "10010101" "11000110" = "010110010"
    ∧ addcarry "10110010" "11000110" =
        [PyVal.bool true, PyVal.bool false, PyVal.bool true, PyVal.bool true,
         PyVal.bool true, PyVal.bool true, PyVal.bool false, PyVal.bool false,
         PyVal.bool false]
    ∧ toStringPy (negateNumber "11000110") ≠ natToBits8 58 := by
  refine ⟨by decide, by decide, by decide⟩

/-- C3: for every 8-bit input, `negateNumber` computes `complementOne`,
re-encodes it as an 8-character bit string, ripple-carry-adds `"00000001"`
with carry-in 0, and returns the 9-element adder result whose trailing 8
bits encode `(256 - x) % 256` (invert-then-increment two's complement); the
leading carry is set exactly on input 0. -/
theorem negateNumber_twos_complement :
    ∀ x : Fin 256,
      negateNumber (natToBits8 x.val) =
        [PyVal.bool (decide (x.val = 0)),
         PyVal.bool (((256 - x.val) % 256).testBit 7),
         PyVal.bool (((256 - x.val) % 256).testBit 6),
         PyVal.bool (((256 - x.val) % 256).testBit 5),
         PyVal.bool (((256 - x.val) % 256).testBit 4),
         PyVal.bool (((256 - x.val) % 256).testBit 3),
         PyVal.bool (((256 - x.val) % 256).testBit 2),
         PyVal.bool (((256 - x.val) % 256).testBit 1),
         PyVal.bool (((256 - x.val) % 256).testBit 0)] :=
  fun x => negateNumber_correct x.val x.isLt

/-- C4 (code bug): `PassTrough` is not the identity on any input — it
returns the bitwise complement, because `Not(Not("F_i"))` passes the inner
inverter only as the outer one's *name*, so a single inversion is wired
instead of two in series.  On the source's commented example the output is
`00111001`, not the input `11000110`. -/
theorem passTrough_complements_every_input :
    (∀ x : Fin 256, PassTrough (natToBits8 x.val) = natToBits8 (255 - x.val))
    ∧ PassTrough "11000110" = "00111001"
    ∧ ("00111001" : String) ≠ "11000110" := by
  refine ⟨?_, by decide, by decide⟩
  set_option maxRecDepth 10000 in decide

/-- C5: a single `complementOne` returns the 8 inverted bits of its input,
most significant first; applying it twice — the intermediate boolean list
re-encoded as a bit string by the repository's own codec, as `negateNumber`
does and as the spec's `bitstring8` signature requires — restores the
original bits. -/
theorem complementOne_involution :
    ∀ x : Fin 256,
      complementOne (natToBits8 x.val) =
        [PyVal.bool (!x.val.testBit 7), PyVal.bool (!x.val.testBit 6),
         PyVal.bool (!x.val.testBit 5), PyVal.bool (!x.val.testBit 4),
         PyVal.bool (!x.val.testBit 3), PyVal.bool (!x.val.testBit 2),
         PyVal.bool (!x.val.testBit 1), PyVal.bool (!x.val.testBit 0)]
      ∧ complementOne (toStringPy (complementOne (natToBits8 x.val))) =
        [PyVal.bool (x.val.testBit 7), PyVal.bool (x.val.testBit 6),
         PyVal.bool (x.val.testBit 5), PyVal.bool (x.val.testBit 4),
         PyVal.bool (x.val.testBit 3), PyVal.bool (x.val.testBit 2),
         PyVal.bool (x.val.testBit 1), PyVal.bool (x.val.testBit 0)] := by
  set_option maxRecDepth 10000 in decide

/-- C6: with both inputs driven to booleans (A then B, each set call running
its full propagation), every gate's output satisfies its truth table:
`And.C = A ∧ B`, `Or.C = A ∨ B`, `Not.B = ¬A`, and the composite `Xor` —
2 inverters, 2 Ands and 1 Or wired as `C = (A ∧ ¬B) ∨ (¬A ∧ B)` — gives
`C = A ⊕ B`. -/
theorem gate_truth_tables :
    ∀ a b : Bool,
      (Gate2.setAndB (Gate2.setAndA Gate2.init (PyVal.bool a)).1 (PyVal.bool b)).1.C
          = PyVal.bool (a && b)
      ∧ (Gate2.setOrB (Gate2.setOrA Gate2.init (PyVal.bool a)).1 (PyVal.bool b)).1.C
          = PyVal.bool (a || b)
      ∧ (NotG.setA NotG.init (PyVal.bool a)).1.B = PyVal.bool (!a)
      ∧ (XorG.setB (XorG.setA XorG.init (PyVal.bool a)).1 (PyVal.bool b)).1.C
          = PyVal.bool (a ^^ b) := by
  decide

/-- C7: for every netlist, state, connector and value, calling `set` with a
value `==`-equal to the stored one is a complete no-op: the state is
returned unchanged (so nothing propagates downstream) and the action list is
empty (no `evaluate` call, no monitor observation, no delivery). -/
theorem connector_set_idempotent_noop (net : Net) (fuel : Nat) (s : Nat → PyVal)
    (c : Nat) (v : PyVal) (h : pyEq (s c) v = true) :
    Connector.set net fuel s c v = (s, []) :=
  set_guard_noop net fuel s c v h

/-- Witness for C7 at a concrete input: a fresh `Not` gate's `B` connector
(holding `None`) set to `None` again. -/
theorem connector_set_idempotent_noop_witness :
    pyEq (freshState 1) PyVal.none = true
    ∧ Connector.set notNet 3 freshState 1 PyVal.none = (freshState, []) :=
  ⟨rfl, connector_set_idempotent_noop notNet 3 freshState 1 PyVal.none rfl⟩

/-- C8: `increment` returns exactly what `addcarry` returns on every pair of
inputs: the wrapped name objects never enter the computed values and each
explicit `F_i.evaluate()` is the composite's inherited no-op. -/
theorem increment_matches_addcarry : ∀ a b : String, increment a b = addcarry a b :=
  fun a b => increment_eq a b

/-- C9: `Connector.set`'s change guard uses Python `==`, under which
`False == 0` and `True == 1`: a connector storing the bool `b` ignores a set
of the int with `b`'s value (and conversely), returning immediately with the
stored representation intact, no evaluate call, no observation and no
downstream delivery. -/
theorem connector_set_conflates_bool_int (net : Net) (fuel : Nat) (s : Nat → PyVal)
    (c : Nat) (b : Bool) :
    pyEq (PyVal.bool b) (PyVal.int (if b then 1 else 0)) = true
    ∧ (s c = PyVal.bool b →
        Connector.set net fuel s c (PyVal.int (if b then 1 else 0)) = (s, []))
    ∧ (s c = PyVal.int (if b then 1 else 0) →
        Connector.set net fuel s c (PyVal.bool b) = (s, [])) := by
  refine ⟨by cases b <;> rfl, fun h => ?_, fun h => ?_⟩
  · exact set_guard_noop net fuel s c _ (by rw [h]; cases b <;> rfl)
  · exact set_guard_noop net fuel s c _ (by rw [h]; cases b <;> rfl)

/-- Witness for C9 at a concrete input: a connector whose stored value is
the bool `False` receiving `set(0)` is a no-op with the state — and hence
the stored `False` representation — unchanged. -/
theorem connector_set_conflates_bool_int_witness :
    allFalseState 0 = PyVal.bool false
    ∧ Connector.set notNet 3 allFalseState 0 (PyVal.int 0) = (allFalseState, []) :=
  ⟨rfl, (connector_set_conflates_bool_int notNet 3 allFalseState 0 false).2.1 rfl⟩

/-- C10: gate evaluation is not guarded on all inputs being set: a fresh
`And` whose `A` is set to the truthy int `1` evaluates `A and B` with `B`
still `None` and its output stays the unset `None`; with the falsy int `0`
the raw int itself is stored on the output.  `Or` behaves dually.  The last
two conjuncts state the short-circuit semantics of the `evaluate`
expressions against an unset operand. -/
theorem gate_eval_unset_shortcircuit :
    (Gate2.setAndA Gate2.init (PyVal.int 1)).1.C = PyVal.none
    ∧ (Gate2.setAndA Gate2.init (PyVal.int 0)).1.C = PyVal.int 0
    ∧ (Gate2.setOrA Gate2.init (PyVal.int 1)).1.C = PyVal.int 1
    ∧ (Gate2.setOrA Gate2.init (PyVal.int 0)).1.C = PyVal.none
    ∧ (∀ v : PyVal, pyAnd v PyVal.none = if pyTruthy v then PyVal.none else v)
    ∧ (∀ v : PyVal, pyOr v PyVal.none = if pyTruthy v then v else PyVal.none) :=
  ⟨rfl, rfl, rfl, rfl, fun _ => rfl, fun _ => rfl⟩

end Deber1
